import Mathlib

/-!
Verification of the agent-session orchestrator of the `dispatch` CLI
(TypeScript sources `src/commands.ts`, `src/shell.ts`, `src/cli.ts`).

The development shallowly embeds the pure computations of the program
(slug derivation, ticket-reference matching, identity resolution, command
construction, status classification) as Lean functions, and the effectful
operations (worktree provisioning, tmux window creation, the launch
sequence, the readiness poll, the stop/logs commands) as explicit
state-passing functions over small state records.  Theorems below settle
the specification's claims against these definitions.
-/

namespace Dispatch

/-! ## Slugification — `slugify` in `src/commands.ts`

The source lowercases the text, replaces every run matching the regex
`[^a-z0-9]+` by a single dash, deletes the leading and trailing dash runs
(regex `^-+` and `-+$`), takes `slice(0, 40)`, and finally deletes the
trailing dash run again (a truncation may expose one).

The run replacement is modelled as a character-wise replacement
of every non-`[a-z0-9]` character by `-` followed by collapsing adjacent
dashes: each maximal run of non-alphanumeric characters becomes exactly
one dash, which is what the global regex replacement does. -/

/-- A character the slug keeps: `[a-z0-9]`. -/
def isSlugChar (c : Char) : Bool :=
  ('a' ≤ c && c ≤ 'z') || ('0' ≤ c && c ≤ '9')

/-- Collapse every run of adjacent dashes to a single dash. -/
def squeezeDashes : List Char → List Char
  | [] => []
  | [c] => [c]
  | c :: d :: rest =>
    if c = '-' && d = '-' then squeezeDashes (d :: rest)
    else c :: squeezeDashes (d :: rest)

/-- Drop the leading run of dashes (the `^-+` half of the trim regex). -/
def dropLeadingDashes (l : List Char) : List Char :=
  l.dropWhile (fun c => c = '-')

/-- Drop the trailing run of dashes (the `-+$` regex). -/
def dropTrailingDashes : List Char → List Char
  | [] => []
  | c :: rest =>
    match dropTrailingDashes rest with
    | [] => if c = '-' then [] else [c]
    | r => c :: r

/-- `slugify` from `src/commands.ts`: lowercase, collapse non-alphanumeric
runs to a dash, trim dashes at both ends, truncate to 40, trim the
trailing dash a truncation may expose. -/
def slugify (s : String) : String :=
  let lowered := s.data.map Char.toLower
  let dashed := squeezeDashes (lowered.map (fun c => if isSlugChar c then c else '-'))
  let trimmed := dropTrailingDashes (dropLeadingDashes dashed)
  String.mk (dropTrailingDashes (trimmed.take 40))

/-! ## Ticket-reference pattern — `TICKET_RE = /^[A-Z]+-[0-9]+$/` -/

/-- Decidable model of `TICKET_RE.test`: one or more uppercase ASCII
letters, a dash, one or more ASCII digits, nothing else.  The greedy
`takeWhile` is equivalent to the regex because `-` is not uppercase. -/
def ticketReTest (s : String) : Bool :=
  let upper := fun c => 'A' ≤ c && c ≤ 'Z'
  let digit := fun c => '0' ≤ c && c ≤ '9'
  let upp := s.data.takeWhile upper
  match s.data.dropWhile upper with
  | '-' :: ds => !upp.isEmpty && !ds.isEmpty && ds.all digit
  | _ => false

/-! ## Configuration

`src/config.ts` is not part of the analysed sources; the record below is
the `Config` shape as used by `src/commands.ts` and by the test helper
`makeConfig` in the repository's test file (baseBranch, model, maxTurns,
maxBudget, allowedTools, worktreeDir, claudeTimeout).  The string fields
mirror the source, where emptiness plays the role of JS falsiness. -/

structure Config where
  baseBranch : String
  model : String
  maxTurns : String
  maxBudget : String
  allowedTools : String
  worktreeDir : String
  claudeTimeout : Nat
deriving DecidableEq

/-! ## Ticket lookup fallback — `fetchLinearTicket` in `src/shell.ts`

When `LINEAR_API_KEY` is unset, when the network call fails, or when the
search returns no node, `fetchLinearTicket` returns
`{ title: ticketId, description: "" }`.  Only this fallback value is
needed by the claims; the successful fetch is an external collaborator. -/

structure LinearTicket where
  title : String
  description : String
deriving DecidableEq

/-- The value `fetchLinearTicket` resolves to whenever no ticket title is
available (no API key configured, fetch failure, or no matching issue). -/
def fetchLinearTicketFallback (ticketId : String) : LinearTicket :=
  { title := ticketId, description := "" }

/-! ## Identity resolution — `launchAgent` in `src/commands.ts` (lines 90–139)

The id/branch derivation is pure given the fetched ticket title, the
time-derived suffix used for the `task-` fallback, and the prompt-file
content (if a readable prompt file was supplied). -/

/-- JS `toLowerCase`, modelled characterwise. -/
def toLowerCase (s : String) : String :=
  String.mk (s.data.map Char.toLower)

/-- Ticket branch of the resolution:
`id = input.toLowerCase() + "-" + slugify(ticket.title)`. -/
def resolveTicketId (input : String) (ticketTitle : String) : String :=
  toLowerCase input ++ "-" ++ slugify ticketTitle

/-- Free-text branch: `id = slugify(input) || "task-" + <last 6 digits of Date.now()>`. -/
def resolveFreeTextId (input : String) (nowSuffix : String) : String :=
  if slugify input ≠ "" then slugify input else "task-" ++ nowSuffix

/-- JS `split("\n")` on the character list: the empty string splits to
one empty piece, and a trailing newline yields a trailing empty piece. -/
def splitLines : List Char → List (List Char)
  | [] => [[]]
  | c :: rest =>
    let r := splitLines rest
    if c = '\n' then [] :: r
    else
      match r with
      | [] => [[c]]
      | h :: t => (c :: h) :: t

/-- JS `trim`: drop the whitespace runs at both ends. -/
def trimChars (l : List Char) : List Char :=
  ((l.dropWhile Char.isWhitespace).reverse.dropWhile Char.isWhitespace).reverse

/-- `prompt.split("\n").find((l) => l.trim().length > 0) || ""`. -/
def firstNonEmptyLine (s : String) : String :=
  String.mk (((splitLines s.data).find? (fun l => !(trimChars l).isEmpty)).getD [])

/-- `firstLine.replace` with the regex `^#+\s*` — strip a markdown heading:
if the line starts with `#`, drop the leading `#` run and the following
whitespace run; otherwise leave the line unchanged. -/
def stripHeading (s : String) : String :=
  if s.data.head? = some '#' then
    String.mk ((s.data.dropWhile (fun c => c = '#')).dropWhile (fun c => c.isWhitespace))
  else s

structure Identity where
  id : String
  branch : String
deriving DecidableEq

/-- The full id/branch derivation of `launchAgent`:
ticket or free-text base, then the `--name` override
(`id = slugify(nameOverride) || nameOverride`), then — only with a prompt
file, no override, and a non-ticket input — the re-derivation from the
prompt file's first non-empty line. -/
def resolveLaunchIdentity (input nameOverride ticketTitle nowSuffix : String)
    (promptFileContent : Option String) : Identity :=
  let base :=
    if ticketReTest input then
      let i := resolveTicketId input ticketTitle
      Identity.mk i i
    else
      let i := resolveFreeTextId input nowSuffix
      Identity.mk i i
  let withOverride :=
    if nameOverride ≠ "" then
      let i := if slugify nameOverride ≠ "" then slugify nameOverride else nameOverride
      Identity.mk i i
    else base
  match promptFileContent with
  | some content =>
    if nameOverride = "" && !ticketReTest input then
      let clean := stripHeading (firstNonEmptyLine content)
      let derived := slugify clean
      if derived ≠ "" then Identity.mk derived derived else withOverride
    else withOverride
  | none => withOverride

/-! ## Claude command construction — `buildClaudeCmd` in `src/commands.ts` -/

inductive Mode | interactive | headless
deriving DecidableEq

/-- The command string together with the file writes the call performs
(`writeFileSync(promptFile, prompt)` happens only in headless mode). -/
structure BuildResult where
  cmd : String
  writes : List (String × String)
deriving DecidableEq

/-- `buildClaudeCmd(prompt, mode, wtPath, config, extraArgs)`.  String
config fields are truthy in JS exactly when non-empty.  `join(wtPath, f)`
is modelled as `wtPath ++ "/" ++ f`. -/
def buildClaudeCmd (prompt : String) (mode : Mode) (wtPath : String)
    (config : Config) (extraArgs : String) : BuildResult :=
  let cmd := "claude"
  let cmd := if mode = .headless then cmd ++ " -p" else cmd
  let cmd := if config.model ≠ "" then cmd ++ " --model " ++ config.model else cmd
  let cmd :=
    if mode = .headless then
      let c := cmd ++ " --allowedTools \x22" ++ config.allowedTools ++ "\x22"
      let c := if config.maxTurns ≠ "" then c ++ " --max-turns " ++ config.maxTurns else c
      let c := if config.maxBudget ≠ "" then c ++ " --max-budget-usd " ++ config.maxBudget else c
      c ++ " --output-format json"
    else cmd
  let cmd := if extraArgs ≠ "" then cmd ++ " " ++ extraArgs else cmd
  if mode = .headless then
    let promptFile := wtPath ++ "/.dispatch-prompt.txt"
    { cmd := cmd ++ " < '" ++ promptFile ++ "'", writes := [(promptFile, prompt)] }
  else
    { cmd := cmd, writes := [] }

/-! ## Session registry — tmux helpers in `src/shell.ts`

A tmux window is modelled by its name, working directory, and the tab
color assigned at creation.  The session state is the ordered window
list of the single shared `dispatch` session. -/

structure TmuxWindow where
  name : String
  cwd : String
  colorHex : String
deriving DecidableEq

structure SessionState where
  windows : List TmuxWindow
deriving DecidableEq

/-- `TAB_COLORS` palette from `src/shell.ts`. -/
def TAB_COLORS : List String :=
  ["2E86AB", "A23B72", "F18F01", "C73E1D", "3B1F2B", "44BBA4", "E94F37", "393E41"]

/-- `windowExists(id)`: the window-name list of the session contains `id`. -/
def windowExists (s : SessionState) (id : String) : Bool :=
  s.windows.any (fun w => w.name = id)

/-- `ensureSession()`: if the shared session does not exist (modelled as
an empty window list — a live tmux session always has a window), create
it with its reserved `dispatch` control window. -/
def ensureSession (s : SessionState) : SessionState :=
  if s.windows.isEmpty then { windows := [TmuxWindow.mk "dispatch" "" ""] } else s

/-- `createWindow(id, cwd)`: no-op returning `false` when the window
already exists; otherwise create the window and assign
`TAB_COLORS[(count - 1) % TAB_COLORS.length]` where `count` is the number
of windows after creation. -/
def createWindow (s : SessionState) (id cwd : String) : SessionState × Bool :=
  if windowExists s id then (s, false)
  else
    let st := ensureSession s
    let count := (st.windows ++ [TmuxWindow.mk id cwd ""]).length
    let hex := TAB_COLORS.getD ((count - 1) % TAB_COLORS.length) ""
    ({ windows := st.windows ++ [TmuxWindow.mk id cwd hex] }, true)

/-- The session entry named `id`, if any. -/
def findWindow (s : SessionState) (id : String) : Option TmuxWindow :=
  s.windows.find? (fun w => w.name = id)

/-! ## Workspace provisioning — `worktreePath` / `createWorktree` in `src/shell.ts`

The filesystem is modelled as the list of existing directory paths.  The
two-stage `git worktree add` (branch off the remote base, fall back to
the existing local branch) is summarised by a `GitOutcome`: which of the
attempts would succeed, or neither (fatal, `process.exit(1)`). -/

/-- `worktreePath(id, config) = join(gitRoot(), config.worktreeDir, id)`. -/
def worktreePath (root : String) (config : Config) (id : String) : String :=
  root ++ "/" ++ config.worktreeDir ++ "/" ++ id

inductive GitOutcome
  | primary   -- `git worktree add -b branch wtPath origin/base` succeeds
  | fallback  -- first attempt fails, `git worktree add wtPath branch` succeeds
  | fatal     -- both attempts fail: log.error + process.exit(1)
deriving DecidableEq

/-- `createWorktree(id, branch, config)`: early return with a warning if
the target path exists; otherwise run git (fatal if both attempts fail).
Returns the updated filesystem and whether the already-exists warning was
logged; `none` models the `process.exit(1)` path. -/
def createWorktree (root : String) (config : Config) (fs : List String)
    (id branch : String) (git : GitOutcome) : Option (List String × Bool) :=
  let wtPath := worktreePath root config id
  if fs.contains wtPath then some (fs, true)
  else if git = .fatal then none
  else some (wtPath :: fs, false)

/-- The spec's `provision(id, branch) -> workspacePath`, as performed by
`launchAgent` (lines 152–153): `createWorktree` followed by
`worktreePath`.  Returns `(fs', warned, path)`. -/
def provision (root : String) (config : Config) (fs : List String)
    (id branch : String) (git : GitOutcome) : Option (List String × Bool × String) :=
  match createWorktree root config fs id branch git with
  | none => none
  | some (fs', warned) => some (fs', warned, worktreePath root config id)

/-! ## Launch sequence — `launchAgent` in `src/commands.ts`

The effectful sequence: prompt-file existence check (early return),
identity resolution, duplicate guard (`windowExists`), worktree
provisioning, window creation.  `promptFile = none` means no
`--prompt-file` argument; `some none` an argument naming a missing file;
`some (some c)` a readable file with content `c`. -/

structure LaunchWorld where
  session : SessionState
  fs : List String
deriving DecidableEq

inductive LaunchResult
  | promptFileMissing
  | conflict (id : String)
  | fatalProvision
  | launched (id : String) (wtPath : String)
deriving DecidableEq

/-- The launch sequence after the prompt-file existence check:
identity resolution, duplicate guard, provisioning, window creation. -/
def launchCore (root : String) (config : Config) (world : LaunchWorld)
    (input nameOverride ticketTitle nowSuffix : String)
    (pfContent : Option String) (skipWorktree : Bool)
    (git : GitOutcome) : LaunchWorld × LaunchResult :=
  let ident := resolveLaunchIdentity input nameOverride ticketTitle nowSuffix pfContent
  if windowExists world.session ident.id then (world, .conflict ident.id)
  else
    let provisioned :=
      if skipWorktree then some (world.fs, false)
      else createWorktree root config world.fs ident.id ident.branch git
    match provisioned with
    | none => (world, .fatalProvision)
    | some (fs', _) =>
      let wtPath := if skipWorktree then root else worktreePath root config ident.id
      let (session', _) := createWindow world.session ident.id wtPath
      ({ session := session', fs := fs' }, .launched ident.id wtPath)

def launchAgent (root : String) (config : Config) (world : LaunchWorld)
    (input nameOverride ticketTitle nowSuffix : String)
    (promptFile : Option (Option String)) (skipWorktree : Bool)
    (git : GitOutcome) : LaunchWorld × LaunchResult :=
  match promptFile with
  | some none => (world, .promptFileMissing)
  | none =>
    launchCore root config world input nameOverride ticketTitle nowSuffix
      none skipWorktree git
  | some (some c) =>
    launchCore root config world input nameOverride ticketTitle nowSuffix
      (some c) skipWorktree git

/-! ## Status classification — `cmdList` in `src/commands.ts`

`tmuxListWindows` yields lines
`window_name|pane_current_command|pane_current_path|pane_dead`; `cmdList`
skips the reserved `dispatch` control window and classifies each other
entry. -/

inductive AgentStatus | running | idle | exited
deriving DecidableEq

/-- The status branch of `cmdList`: dead pane ⇒ exited; foreground
command `claude` or `node` ⇒ running; anything else ⇒ idle. -/
def classifyStatus (cmd : String) (dead : String) : AgentStatus :=
  if dead = "1" then .exited
  else if cmd = "claude" || cmd = "node" then .running
  else .idle

/-- One parsed line of `tmuxListWindows` output. -/
structure WindowLine where
  name : String
  cmd : String
  path : String
  dead : String
deriving DecidableEq

/-- The (id, status, cwd) listing produced by `cmdList`, with the
reserved `dispatch` control window excluded. -/
def listAgents (lines : List WindowLine) : List (String × AgentStatus × String) :=
  (lines.filter (fun l => l.name ≠ "dispatch")).map
    (fun l => (l.name, classifyStatus l.cmd l.dead, l.path))

/-! ## Readiness poll — `waitForClaude` in `src/shell.ts`

The poll reads the captured pane content once per one-second iteration;
the captured content at iteration `i` is supplied by `capture i`.  The
readiness test is `/^\s*[>?]\s*$/m` (some line whose trim is `>` or `?`)
or the case-insensitive banner test for `╭`, `Welcome` or `claude`. -/

/-- `needle` occurs as a contiguous sublist of `hay`. -/
def hasSub (hay needle : List Char) : Bool :=
  match hay with
  | [] => needle.isEmpty
  | _ :: t => needle.isPrefixOf hay || hasSub t needle

/-- The readiness predicate of `waitForClaude`: some line trims to a
bare `>` or `?`, or the lowercased content contains `╭`, `welcome` or
`claude`. -/
def claudeReady (content : String) : Bool :=
  (splitLines content.data).any
      (fun l => trimChars l = ">".data || trimChars l = "?".data)
    || hasSub (content.data.map Char.toLower) "╭".data
    || hasSub (content.data.map Char.toLower) "welcome".data
    || hasSub (content.data.map Char.toLower) "claude".data

/-- The `while (waited < timeout)` loop of `waitForClaude`, with the
remaining iteration budget `timeout - waited` as structural fuel: the
guard `waited < timeout` holds exactly when the fuel is positive, and
each pass increments `waited` while consuming one unit of fuel.  Returns
the number of completed iterations and whether the timeout warning was
logged (`true` exactly on exhaustion). -/
def waitLoop (capture : Nat → String) (waited : Nat) : Nat → Nat × Bool
  | 0 => (waited, true)
  | fuel + 1 =>
    if claudeReady (capture waited) then (waited, false)
    else waitLoop capture (waited + 1) fuel

/-- `waitForClaude(id, timeout)`, with the tmux capture abstracted as the
iteration-indexed content `capture`. -/
def waitForClaude (capture : Nat → String) (timeout : Nat) : Nat × Bool :=
  waitLoop capture 0 timeout

/-! ## Stop and logs commands — `cmdStop` / `cmdLogs` in `src/commands.ts` -/

/-- Outcome of `cmdStop`: the process exit code, whether the
"not running" warning was printed, and whether the window was killed. -/
structure StopResult where
  exitCode : Nat
  warnedNotRunning : Bool
  killed : Bool
deriving DecidableEq

/-- `cmdStop(args)`: usage error exits 1; a missing window warns and
returns normally (the process then exits 0); otherwise interrupt and
kill the window, returning normally. -/
def cmdStop (args : List String) (session : SessionState) : StopResult :=
  match args.head? with
  | none => ⟨1, false, false⟩
  | some id =>
    if id = "" then ⟨1, false, false⟩
    else if windowExists session id then ⟨0, false, true⟩
    else ⟨0, true, false⟩

inductive LogsOutcome
  | usageError   -- missing id: process.exit(1)
  | tailing      -- log file exists: tail it, exit 0 on interrupt/child exit
  | paneCapture  -- no log file but window exists: print capture, return normally
  | notFound     -- neither: log.error + process.exit(1)
deriving DecidableEq

def logsExitCode : LogsOutcome → Nat
  | .usageError => 1
  | .tailing => 0
  | .paneCapture => 0
  | .notFound => 1

/-- `cmdLogs(args)`: dispatch on the log file
`join(worktreePath(id), ".dispatch.log")` and the window's existence. -/
def cmdLogs (args : List String) (root : String) (config : Config)
    (fs : List String) (session : SessionState) : LogsOutcome :=
  match args.head? with
  | none => .usageError
  | some id =>
    if id = "" then .usageError
    else
      let logFile := worktreePath root config id ++ "/.dispatch.log"
      if fs.contains logFile then .tailing
      else if windowExists session id then .paneCapture
      else .notFound

/-! ## Helper lemmas on the slug pipeline -/

theorem mem_squeezeDashes {c : Char} : ∀ {l : List Char}, c ∈ squeezeDashes l → c ∈ l
  | [], h => by simpa [squeezeDashes] using h
  | [_], h => by simpa [squeezeDashes] using h
  | d :: e :: rest, h => by
    rw [squeezeDashes] at h
    split at h
    · exact List.mem_cons_of_mem _ (mem_squeezeDashes h)
    · rcases List.mem_cons.mp h with h | h
      · exact h ▸ List.mem_cons_self _ _
      · exact List.mem_cons_of_mem _ (mem_squeezeDashes h)

theorem mem_dropTrailingDashes {c : Char} :
    ∀ {l : List Char}, c ∈ dropTrailingDashes l → c ∈ l
  | [], h => by simpa [dropTrailingDashes] using h
  | d :: rest, h => by
    rw [dropTrailingDashes] at h
    revert h
    cases hr : dropTrailingDashes rest with
    | nil =>
      intro h
      split at h <;> simp_all
    | cons x xs =>
      intro h
      rcases List.mem_cons.mp h with h | h
      · simp [h]
      · exact List.mem_cons_of_mem _ (mem_dropTrailingDashes (hr.symm ▸ h))

/-- `dropTrailingDashes` either empties a cons cell or keeps its head. -/
theorem dropTrailingDashes_cons (d : Char) (rest : List Char) :
    dropTrailingDashes (d :: rest) = [] ∨
    ∃ r, dropTrailingDashes (d :: rest) = d :: r := by
  rw [dropTrailingDashes]
  cases hr : dropTrailingDashes rest with
  | nil =>
    by_cases hd : d = '-'
    · left; simp [hd]
    · right; exact ⟨[], by simp [hd]⟩
  | cons x xs => right; exact ⟨x :: xs, rfl⟩

theorem head?_dropTrailingDashes {l : List Char} {c : Char}
    (h : (dropTrailingDashes l).head? = some c) : l.head? = some c := by
  cases l with
  | nil => simp [dropTrailingDashes] at h
  | cons d rest =>
    rcases dropTrailingDashes_cons d rest with he | ⟨r, he⟩
    · rw [he] at h; simp at h
    · rw [he] at h
      simp at h
      simp [h]

theorem getLast?_dropTrailingDashes_ne :
    ∀ (l : List Char), (dropTrailingDashes l).getLast? ≠ some '-'
  | [] => by simp [dropTrailingDashes]
  | d :: rest => by
    rw [dropTrailingDashes]
    cases hr : dropTrailingDashes rest with
    | nil =>
      by_cases hd : d = '-'
      · simp [hd]
      · simp [hd]
    | cons x xs =>
      have ih := getLast?_dropTrailingDashes_ne rest
      rw [hr] at ih
      simpa [List.getLast?_cons_cons] using ih

theorem length_dropTrailingDashes_le :
    ∀ (l : List Char), (dropTrailingDashes l).length ≤ l.length
  | [] => le_refl _
  | d :: rest => by
    rw [dropTrailingDashes]
    cases hr : dropTrailingDashes rest with
    | nil =>
      by_cases hd : d = '-' <;> simp [hd]
    | cons x xs =>
      have ih := length_dropTrailingDashes_le rest
      rw [hr] at ih
      simpa using ih

theorem head?_dropLeadingDashes {l : List Char} {c : Char}
    (h : (dropLeadingDashes l).head? = some c) : c ≠ '-' := by
  induction l with
  | nil => simp [dropLeadingDashes] at h
  | cons d rest ih =>
    rw [dropLeadingDashes, List.dropWhile_cons] at h
    split at h
    · exact ih (by rw [dropLeadingDashes]; exact h)
    · rename_i hd
      simp at h
      simp at hd
      rw [← h]
      exact hd

/-- Unfolded character-list form of `slugify`. -/
theorem slugify_data (s : String) :
    (slugify s).data =
      dropTrailingDashes ((dropTrailingDashes (dropLeadingDashes
        (squeezeDashes ((s.data.map Char.toLower).map
          (fun c => if isSlugChar c then c else '-'))))).take 40) := rfl

/-- Every character of a slug is alphanumeric or a dash. -/
theorem slugify_charset (s : String) :
    ∀ c ∈ (slugify s).data, isSlugChar c = true ∨ c = '-' := by
  intro c hc
  rw [slugify_data] at hc
  have h1 := mem_dropTrailingDashes hc
  have h2 := List.Sublist.mem h1 (List.take_sublist 40 _)
  have h3 := mem_dropTrailingDashes h2
  have h4 := List.Sublist.mem h3 (List.dropWhile_sublist _)
  have h5 := mem_squeezeDashes h4
  rcases List.mem_map.mp h5 with ⟨a, _, ha⟩
  by_cases hsl : isSlugChar a
  · rw [if_pos hsl] at ha
    exact Or.inl (ha ▸ hsl)
  · rw [if_neg hsl] at ha
    exact Or.inr ha.symm

/-! ## Helper lemmas on the session registry and launch sequence -/

/-- After `createWindow`, a window named `id` exists. -/
theorem windowExists_createWindow (s : SessionState) (id cwd : String) :
    windowExists (createWindow s id cwd).1 id = true := by
  rw [createWindow]
  split
  · simpa using ‹_›
  · simp [windowExists]

/-- Free-text resolution with a non-empty slug, no override and no
prompt file: the identity is the slug of the input. -/
theorem resolve_free_text (input t suffix : String)
    (hre : ticketReTest input = false) (hs : slugify input ≠ "") :
    resolveLaunchIdentity input "" t suffix none
      = Identity.mk (slugify input) (slugify input) := by
  simp [resolveLaunchIdentity, hre, resolveFreeTextId, hs]

/-- `launchCore` on a world whose session already has a window with the
resolved id aborts with a conflict naming that id, before provisioning:
the world (session and filesystem) is returned unchanged. -/
theorem launchCore_conflict (root : String) (config : Config) (world : LaunchWorld)
    (input nameOverride ticketTitle nowSuffix : String)
    (pfContent : Option String) (skipWorktree : Bool) (git : GitOutcome)
    (h : windowExists world.session
        (resolveLaunchIdentity input nameOverride ticketTitle nowSuffix pfContent).id = true) :
    launchCore root config world input nameOverride ticketTitle nowSuffix
        pfContent skipWorktree git
      = (world, .conflict
          (resolveLaunchIdentity input nameOverride ticketTitle nowSuffix pfContent).id) := by
  rw [launchCore]
  simp [h]

/-- A launch that reports `launched` leaves a session window named by the
launched id. -/
theorem launched_windowExists (root : String) (config : Config) (world : LaunchWorld)
    (input nameOverride ticketTitle nowSuffix : String)
    (pfContent : Option String) (skipWorktree : Bool) (git : GitOutcome)
    (world1 : LaunchWorld) (id wt : String)
    (h : launchCore root config world input nameOverride ticketTitle nowSuffix
          pfContent skipWorktree git = (world1, .launched id wt)) :
    windowExists world1.session id = true := by
  rw [launchCore] at h
  split at h
  · simp at h
  · by_cases hsw : skipWorktree
    · simp only [hsw, if_true] at h
      simp only [Prod.mk.injEq, LaunchResult.launched.injEq] at h
      rw [← h.1, ← h.2.1]
      exact windowExists_createWindow _ _ _
    · simp only [hsw, if_false, Bool.false_eq_true] at h
      split at h
      · simp at h
      · simp only [Prod.mk.injEq, LaunchResult.launched.injEq] at h
        rw [← h.1, ← h.2.1]
        exact windowExists_createWindow _ _ _

/-- A launch that reports `launched` launched the resolved identity. -/
theorem launchCore_launched_id (root : String) (config : Config) (world : LaunchWorld)
    (input nameOverride ticketTitle nowSuffix : String)
    (pfContent : Option String) (skipWorktree : Bool) (git : GitOutcome)
    (world1 : LaunchWorld) (id wt : String)
    (h : launchCore root config world input nameOverride ticketTitle nowSuffix
          pfContent skipWorktree git = (world1, .launched id wt)) :
    id = (resolveLaunchIdentity input nameOverride ticketTitle nowSuffix pfContent).id := by
  rw [launchCore] at h
  split at h
  · simp at h
  · by_cases hsw : skipWorktree
    · simp only [hsw, if_true] at h
      simp only [Prod.mk.injEq, LaunchResult.launched.injEq] at h
      exact h.2.1.symm
    · simp only [hsw, if_false, Bool.false_eq_true] at h
      split at h
      · simp at h
      · simp only [Prod.mk.injEq, LaunchResult.launched.injEq] at h
        exact h.2.1.symm

/-- A window that already exists makes `createWindow` a strict no-op. -/
theorem createWindow_exists_noop (s : SessionState) (id cwd : String)
    (h : windowExists s id = true) : createWindow s id cwd = (s, false) := by
  rw [createWindow]
  simp [h]

/-! ## Helper lemmas on the readiness poll -/

theorem waitLoop_bounds (capture : Nat → String) :
    ∀ (fuel waited : Nat),
      waited ≤ (waitLoop capture waited fuel).1 ∧
      (waitLoop capture waited fuel).1 ≤ waited + fuel
  | 0, waited => by simp [waitLoop]
  | fuel + 1, waited => by
    rw [waitLoop]
    split
    · simp
    · obtain ⟨ih1, ih2⟩ := waitLoop_bounds capture fuel (waited + 1)
      exact ⟨by omega, by omega⟩

theorem waitLoop_timeout (capture : Nat → String) :
    ∀ (fuel waited : Nat),
      (∀ i, waited ≤ i → i < waited + fuel → claudeReady (capture i) = false) →
      waitLoop capture waited fuel = (waited + fuel, true)
  | 0, waited, _ => by simp [waitLoop]
  | fuel + 1, waited, h => by
    rw [waitLoop]
    have h0 : claudeReady (capture waited) = false := h waited le_rfl (by omega)
    simp only [h0, Bool.false_eq_true, if_false]
    have ih := waitLoop_timeout capture fuel (waited + 1)
      (fun i h1 h2 => h i (by omega) (by omega))
    have harith : waited + 1 + fuel = waited + (fuel + 1) := by omega
    rw [ih, harith]

theorem waitLoop_early (capture : Nat → String) :
    ∀ (fuel waited j : Nat),
      waited ≤ j → j < waited + fuel →
      claudeReady (capture j) = true →
      (∀ i, waited ≤ i → i < j → claudeReady (capture i) = false) →
      waitLoop capture waited fuel = (j, false)
  | 0, waited, j, h1, h2, _, _ => absurd h2 (by omega)
  | fuel + 1, waited, j, h1, h2, hr, hmin => by
    rw [waitLoop]
    by_cases hw : waited = j
    · subst hw
      simp [hr]
    · have h0 : claudeReady (capture waited) = false := hmin waited le_rfl (by omega)
      simp only [h0, Bool.false_eq_true, if_false]
      exact waitLoop_early capture fuel (waited + 1) j (by omega) (by omega) hr
        (fun i hi1 hi2 => hmin i (by omega) hi2)

/-! ## Claim theorems -/

/-- C1 (counterexample): launching with input `"HEY-123"` with no ticket
service configured resolves the ID to `"hey-123-hey-123"` — the
lowercased reference plus the slug of the fallback title, which is the
reference itself — and not to the bare lowercased reference `"hey-123"`
as the claim states. -/
theorem ticket_fallback_counterexample :
    (resolveLaunchIdentity "HEY-123" ""
        (fetchLinearTicketFallback "HEY-123").title "000000" none).id
      = "hey-123-hey-123" ∧
    (resolveLaunchIdentity "HEY-123" ""
        (fetchLinearTicketFallback "HEY-123").title "000000" none).id
      ≠ "hey-123" := by decide

/-- C1 (amended): for every ticket-reference input whose title falls back
to the reference itself (no API key, fetch failure), the resolved ID is
the lowercased reference concatenated with `"-"` and the slugified
reference — e.g. `"HEY-123"` yields `"hey-123-hey-123"`, not
`"hey-123"`. -/
theorem ticket_fallback_id (input nowSuffix : String)
    (h : ticketReTest input = true) :
    (resolveLaunchIdentity input ""
        (fetchLinearTicketFallback input).title nowSuffix none).id
      = toLowerCase input ++ "-" ++ slugify input := by
  simp [resolveLaunchIdentity, h, resolveTicketId, fetchLinearTicketFallback]

/-- Witness for C1's amended theorem at the concrete scenario input. -/
theorem ticket_fallback_id_witness :
    ticketReTest "HEY-123" = true ∧
    (resolveLaunchIdentity "HEY-123" ""
        (fetchLinearTicketFallback "HEY-123").title "000000" none).id
      = toLowerCase "HEY-123" ++ "-" ++ slugify "HEY-123" :=
  ⟨by decide, ticket_fallback_id "HEY-123" "000000" (by decide)⟩

/-- C2: if the resolved ID already names an existing session window, the
launch aborts with a conflict naming that ID before any provisioning —
the whole world (session and filesystem) is returned unchanged; and in
particular launching twice with the same free-text input and no name
override makes the second launch report a conflict for the derived ID
and leave the first launch's world untouched. -/
theorem launch_duplicate_guard :
    (∀ root config world input nameOverride ticketTitle nowSuffix
        (pfc : Option String) skipWorktree git,
      windowExists world.session
          (resolveLaunchIdentity input nameOverride ticketTitle nowSuffix pfc).id = true →
      launchAgent root config world input nameOverride ticketTitle nowSuffix
          (pfc.map some) skipWorktree git
        = (world, .conflict
            (resolveLaunchIdentity input nameOverride ticketTitle nowSuffix pfc).id))
    ∧ (∀ root config world input ticketTitle s1 s2 git1 git2 world1 id wt skipWorktree,
      ticketReTest input = false → slugify input ≠ "" →
      launchAgent root config world input "" ticketTitle s1 none skipWorktree git1
        = (world1, .launched id wt) →
      launchAgent root config world1 input "" ticketTitle s2 none skipWorktree git2
        = (world1, .conflict id)) := by
  constructor
  · intro root config world input nameOverride ticketTitle nowSuffix pfc skip git h
    cases pfc with
    | none =>
      exact launchCore_conflict root config world input nameOverride ticketTitle
        nowSuffix none skip git h
    | some c =>
      exact launchCore_conflict root config world input nameOverride ticketTitle
        nowSuffix (some c) skip git h
  · intro root config world input ticketTitle s1 s2 git1 git2 world1 id wt skip hre hs h
    have h' : launchCore root config world input "" ticketTitle s1 none skip git1
        = (world1, .launched id wt) := h
    have hid1 : id = (resolveLaunchIdentity input "" ticketTitle s1 none).id :=
      launchCore_launched_id root config world input "" ticketTitle s1 none skip git1
        world1 id wt h'
    have hw : windowExists world1.session id = true :=
      launched_windowExists root config world input "" ticketTitle s1 none skip git1
        world1 id wt h'
    have hr1 : (resolveLaunchIdentity input "" ticketTitle s1 none).id = slugify input := by
      rw [resolve_free_text input ticketTitle s1 hre hs]
    have hr2 : (resolveLaunchIdentity input "" ticketTitle s2 none).id = slugify input := by
      rw [resolve_free_text input ticketTitle s2 hre hs]
    have hw2 : windowExists world1.session
        (resolveLaunchIdentity input "" ticketTitle s2 none).id = true := by
      rw [hr2, ← hr1, ← hid1]
      exact hw
    have := launchCore_conflict root config world1 input "" ticketTitle s2 none skip git2 hw2
    show launchCore root config world1 input "" ticketTitle s2 none skip git2
        = (world1, .conflict id)
    rw [this, hr2, ← hr1, ← hid1]

/-- Witness for C2 at concrete inputs: launching free text
`"Fix the auth bug"` twice in an initially empty world. -/
theorem launch_duplicate_guard_witness :
    (launchAgent "/repo" (Config.mk "dev" "" "" "" "tools" ".worktrees" 30)
        (LaunchWorld.mk (SessionState.mk []) []) "Fix the auth bug" "" "" "111111"
        none false .primary).2
      = LaunchResult.launched "fix-the-auth-bug" "/repo/.worktrees/fix-the-auth-bug" ∧
    launchAgent "/repo" (Config.mk "dev" "" "" "" "tools" ".worktrees" 30)
        (launchAgent "/repo" (Config.mk "dev" "" "" "" "tools" ".worktrees" 30)
          (LaunchWorld.mk (SessionState.mk []) []) "Fix the auth bug" "" "" "111111"
          none false .primary).1
        "Fix the auth bug" "" "" "222222" none false .primary
      = ((launchAgent "/repo" (Config.mk "dev" "" "" "" "tools" ".worktrees" 30)
          (LaunchWorld.mk (SessionState.mk []) []) "Fix the auth bug" "" "" "111111"
          none false .primary).1, LaunchResult.conflict "fix-the-auth-bug") := by
  constructor
  · decide
  · exact launch_duplicate_guard.2 "/repo" (Config.mk "dev" "" "" "" "tools" ".worktrees" 30)
      (LaunchWorld.mk (SessionState.mk []) []) "Fix the auth bug" "" "111111" "222222"
      .primary .primary _ "fix-the-auth-bug" "/repo/.worktrees/fix-the-auth-bug" false
      (by decide) (by decide) (by decide)

/-- C3: workspace provisioning is idempotent: if a `provision` call
succeeds, provisioning the same `(id, branch)` again — with any git
outcome — returns the same workspace path, logs the already-exists
warning, and leaves the filesystem unchanged (no error, no recreation). -/
theorem provision_idempotent (root : String) (config : Config) (fs : List String)
    (id branch : String) (git1 git2 : GitOutcome) (fs1 : List String)
    (w1 : Bool) (p1 : String)
    (h : provision root config fs id branch git1 = some (fs1, w1, p1)) :
    provision root config fs1 id branch git2 = some (fs1, true, p1) := by
  have key : fs1.contains (worktreePath root config id) = true ∧
      p1 = worktreePath root config id := by
    rw [provision, createWorktree] at h
    by_cases hc : fs.contains (worktreePath root config id)
    · rw [if_pos hc] at h
      simp only [Option.some.injEq, Prod.mk.injEq] at h
      obtain ⟨e1, _, e3⟩ := h
      exact ⟨e1 ▸ hc, e3.symm⟩
    · rw [if_neg hc] at h
      by_cases hg : git1 = GitOutcome.fatal
      · rw [if_pos hg] at h
        simp at h
      · rw [if_neg hg] at h
        simp only [Option.some.injEq, Prod.mk.injEq] at h
        obtain ⟨e1, _, e3⟩ := h
        refine ⟨?_, e3.symm⟩
        rw [← e1]
        simp
  rw [provision, createWorktree, if_pos key.1, key.2]

/-- Witness for C3 with a concrete first provisioning. -/
theorem provision_idempotent_witness :
    provision "/repo" (Config.mk "dev" "" "" "" "tools" ".worktrees" 30) []
        "hey-1" "hey-1" .primary
      = some (["/repo/.worktrees/hey-1"], false, "/repo/.worktrees/hey-1") ∧
    provision "/repo" (Config.mk "dev" "" "" "" "tools" ".worktrees" 30)
        ["/repo/.worktrees/hey-1"] "hey-1" "hey-1" .fatal
      = some (["/repo/.worktrees/hey-1"], true, "/repo/.worktrees/hey-1") :=
  ⟨by decide,
   provision_idempotent "/repo" (Config.mk "dev" "" "" "" "tools" ".worktrees" 30) []
     "hey-1" "hey-1" .primary .fatal ["/repo/.worktrees/hey-1"] false
     "/repo/.worktrees/hey-1" (by decide)⟩

/-- C4: session-entry creation is idempotent: after a `createWindow`,
creating the same name again (even with a different working directory)
returns `false` and leaves the session — in particular the first entry's
assigned color and working directory — completely unchanged. -/
theorem create_window_idempotent (s : SessionState) (id cwd cwd2 : String) :
    createWindow (createWindow s id cwd).1 id cwd2 = ((createWindow s id cwd).1, false)
    ∧ findWindow (createWindow (createWindow s id cwd).1 id cwd2).1 id
        = findWindow (createWindow s id cwd).1 id := by
  have h := createWindow_exists_noop (createWindow s id cwd).1 id cwd2
    (windowExists_createWindow s id cwd)
  exact ⟨h, by rw [h]⟩

/-- C5: agent status classification is a total function on the observed
`(foregroundCommand, pane_dead)` metadata: every pair maps to exactly one
of running/idle/exited; a dead pane is always `exited`; a recognized
long-running command (`claude` or `node`) on a live pane is `running`;
anything else is `idle`; and the listing excludes the reserved
`dispatch` control window while classifying every other entry. -/
theorem status_classification_total (cmd dead : String) (lines : List WindowLine) :
    (classifyStatus cmd dead = .running ∨ classifyStatus cmd dead = .idle
      ∨ classifyStatus cmd dead = .exited)
    ∧ (dead = "1" → classifyStatus cmd dead = .exited)
    ∧ (dead ≠ "1" → (cmd = "claude" ∨ cmd = "node") → classifyStatus cmd dead = .running)
    ∧ (dead ≠ "1" → cmd ≠ "claude" → cmd ≠ "node" → classifyStatus cmd dead = .idle)
    ∧ (∀ e ∈ listAgents lines, e.1 ≠ "dispatch")
    ∧ (∀ l ∈ lines, l.name ≠ "dispatch" →
        (l.name, classifyStatus l.cmd l.dead, l.path) ∈ listAgents lines) := by
  refine ⟨?_, ?_, ?_, ?_, ?_, ?_⟩
  · rw [classifyStatus]
    split_ifs <;> simp
  · intro h
    simp [classifyStatus, h]
  · intro h1 h2
    rcases h2 with h2 | h2 <;> simp [classifyStatus, h1, h2]
  · intro h1 h2 h3
    simp [classifyStatus, h1, h2, h3]
  · intro e he
    rw [listAgents] at he
    rcases List.mem_map.mp he with ⟨l, hl, rfl⟩
    simpa using (List.mem_filter.mp hl).2
  · intro l hl hname
    rw [listAgents]
    exact List.mem_map.mpr ⟨l, List.mem_filter.mpr ⟨hl, by simpa using hname⟩, rfl⟩

/-- Witness for C5 at concrete metadata and a concrete listing. -/
theorem status_classification_total_witness :
    classifyStatus "claude" "0" = .running ∧
    classifyStatus "zsh" "1" = .exited ∧
    (∀ e ∈ listAgents [WindowLine.mk "dispatch" "zsh" "/r" "0",
        WindowLine.mk "hey-1" "claude" "/r/w" "0"], e.1 ≠ "dispatch") :=
  ⟨(status_classification_total "claude" "0" []).2.2.1 (by decide) (Or.inl rfl),
   (status_classification_total "zsh" "1" []).2.1 rfl,
   (status_classification_total "" "" [WindowLine.mk "dispatch" "zsh" "/r" "0",
      WindowLine.mk "hey-1" "claude" "/r/w" "0"]).2.2.2.2.1⟩

/-- C6: slugification is pure, deterministic and total: for every
non-empty input string the output contains only characters in
`[a-z0-9-]` (hence is lowercase: it contains no uppercase ASCII letter),
has no leading or trailing dash — including after truncation — and is at
most 40 characters long. -/
theorem slugify_wellformed (s : String) (hne : s ≠ "") :
    (∀ c ∈ (slugify s).data, isSlugChar c = true ∨ c = '-')
    ∧ (∀ c ∈ (slugify s).data, ¬('A' ≤ c ∧ c ≤ 'Z'))
    ∧ (slugify s).data.head? ≠ some '-'
    ∧ (slugify s).data.getLast? ≠ some '-'
    ∧ (slugify s).length ≤ 40 := by
  refine ⟨slugify_charset s, ?_, ?_, ?_, ?_⟩
  · intro c hc
    rcases slugify_charset s c hc with h | h
    · rw [isSlugChar] at h
      rcases Bool.or_eq_true_iff.mp h with h | h <;>
        obtain ⟨h1, h2⟩ := Bool.and_eq_true_iff.mp h
      · rintro ⟨hA, hZ⟩
        have hlow : ('a' : Char) ≤ c := by exact_mod_cast of_decide_eq_true h1
        have : ('a' : Char) ≤ 'Z' := le_trans hlow hZ
        exact absurd this (by decide)
      · rintro ⟨hA, hZ⟩
        have hdig : c ≤ '9' := by exact_mod_cast of_decide_eq_true h2
        have : ('A' : Char) ≤ '9' := le_trans hA hdig
        exact absurd this (by decide)
    · rintro ⟨hA, hZ⟩
      rw [h] at hA
      exact absurd hA (by decide)
  · intro hcontra
    rw [slugify_data] at hcontra
    have h1 := head?_dropTrailingDashes hcontra
    rw [List.head?_take] at h1
    simp only [OfNat.ofNat_ne_zero, if_false] at h1
    have h2 := head?_dropTrailingDashes h1
    exact head?_dropLeadingDashes h2 rfl
  · rw [slugify_data]
    exact getLast?_dropTrailingDashes_ne _
  · have h1 : (slugify s).length = (slugify s).data.length := rfl
    rw [h1, slugify_data]
    calc (dropTrailingDashes _).length
        ≤ _ := length_dropTrailingDashes_le _
      _ ≤ 40 := List.length_take_le _ _

/-- Witness for C6 at the concrete free-text input. -/
theorem slugify_wellformed_witness :
    ("Fix the auth bug" : String) ≠ "" ∧
    (slugify "Fix the auth bug").data.head? ≠ some '-' ∧
    (slugify "Fix the auth bug").data.getLast? ≠ some '-' ∧
    (slugify "Fix the auth bug").length ≤ 40 :=
  ⟨by decide,
   (slugify_wellformed "Fix the auth bug" (by decide)).2.2.1,
   (slugify_wellformed "Fix the auth bug" (by decide)).2.2.2.1,
   (slugify_wellformed "Fix the auth bug" (by decide)).2.2.2.2⟩

/-- C7: the readiness poll terminates for every capture stream and every
timeout: it performs at most `timeout` one-second iterations; if no
iteration observes a ready pane it returns normally after `timeout`
iterations with the non-fatal warning (never a failure); and it returns
early, without the warning, at the first iteration whose captured
content matches the prompt-indicator or startup-banner pattern. -/
theorem wait_for_claude_terminates (capture : Nat → String) (timeout : Nat) :
    ((waitForClaude capture timeout).1 ≤ timeout)
    ∧ ((∀ i, i < timeout → claudeReady (capture i) = false) →
        waitForClaude capture timeout = (timeout, true))
    ∧ (∀ j, j < timeout → claudeReady (capture j) = true →
        (∀ i, i < j → claudeReady (capture i) = false) →
        waitForClaude capture timeout = (j, false)) := by
  refine ⟨?_, ?_, ?_⟩
  · have h := (waitLoop_bounds capture timeout 0).2
    simpa [waitForClaude] using h
  · intro h
    have := waitLoop_timeout capture timeout 0 (fun i _ h2 => h i (by omega))
    simpa [waitForClaude] using this
  · intro j hj hr hmin
    have := waitLoop_early capture timeout 0 j (Nat.zero_le j) (by omega) hr
      (fun i _ h2 => hmin i h2)
    simpa [waitForClaude] using this

/-- Witness for C7: a never-ready capture exhausts the timeout with the
warning; a capture ready at iteration 1 returns early without it. -/
theorem wait_for_claude_terminates_witness :
    waitForClaude (fun _ => "") 3 = (3, true) ∧
    waitForClaude (fun i => if i = 1 then "> " else "") 5 = (1, false) :=
  ⟨(wait_for_claude_terminates (fun _ => "") 3).2.1 (fun i _ => by decide),
   (wait_for_claude_terminates (fun i => if i = 1 then "> " else "") 5).2.2 1
     (by decide) (by decide)
     (fun i hi => by interval_cases i <;> decide)⟩

/-- C8 (counterexample): `dispatch stop` on a nonexistent agent does not
exit with code 1 — it warns and returns normally, so the process exits
0, contradicting the claim that every command invoked against a missing
agent id exits 1. -/
theorem stop_missing_agent_counterexample :
    cmdStop ["ghost"] (SessionState.mk []) = StopResult.mk 0 true false ∧
    (cmdStop ["ghost"] (SessionState.mk [])).exitCode ≠ 1 := by decide

/-- C8 (amended): the stop and logs commands only ever produce exit
codes 0 or 1; `logs` for an agent with neither a log file nor a session
window errors and exits 1; but `stop` for a nonexistent agent warns and
exits 0 (treated as success), not 1. -/
theorem exit_codes_amended (args : List String) (session : SessionState)
    (root : String) (config : Config) (fs : List String) (id : String) :
    ((cmdStop args session).exitCode = 0 ∨ (cmdStop args session).exitCode = 1)
    ∧ (logsExitCode (cmdLogs args root config fs session) = 0
        ∨ logsExitCode (cmdLogs args root config fs session) = 1)
    ∧ (id ≠ "" →
        fs.contains (worktreePath root config id ++ "/.dispatch.log") = false →
        windowExists session id = false →
        cmdLogs [id] root config fs session = .notFound ∧
        logsExitCode (cmdLogs [id] root config fs session) = 1)
    ∧ (id ≠ "" → windowExists session id = false →
        cmdStop [id] session = StopResult.mk 0 true false) := by
  refine ⟨?_, ?_, ?_, ?_⟩
  · rcases args with _ | ⟨a, rest⟩
    · simp [cmdStop]
    · rw [cmdStop]
      simp only [List.head?_cons]
      split_ifs <;> simp
  · rcases args with _ | ⟨a, rest⟩
    · simp [cmdLogs, logsExitCode]
    · rw [cmdLogs]
      simp only [List.head?_cons]
      split_ifs <;> simp [logsExitCode]
  · intro h1 h2 h3
    rw [cmdLogs]
    simp only [List.head?_cons]
    rw [if_neg h1, if_neg (by simp only [h2]; exact Bool.false_ne_true),
      if_neg (by simp only [h3]; exact Bool.false_ne_true)]
    exact ⟨rfl, rfl⟩
  · intro h1 h2
    rw [cmdStop]
    simp only [List.head?_cons]
    rw [if_neg h1, if_neg (by simp only [h2]; exact Bool.false_ne_true)]

/-- Witness for C8's amended theorem at concrete inputs. -/
theorem exit_codes_amended_witness :
    (cmdStop ["x"] (SessionState.mk [])).exitCode = 0 ∧
    cmdLogs ["ghost"] "/repo" (Config.mk "dev" "" "" "" "tools" ".worktrees" 30)
        [] (SessionState.mk []) = .notFound ∧
    cmdStop ["ghost"] (SessionState.mk []) = StopResult.mk 0 true false := by
  have h := exit_codes_amended ["x"] (SessionState.mk []) "/repo"
    (Config.mk "dev" "" "" "" "tools" ".worktrees" 30) [] "ghost"
  exact ⟨by decide,
    (h.2.2.1 (by decide) (by decide) (by decide)).1,
    h.2.2.2 (by decide) (by decide)⟩

/-- C9: with a non-empty name override, the resolved agent ID is the
slugified override whenever that slug is non-empty, and the raw override
string only when its slug is empty; and the branch always equals the
resolved ID (with or without an override). -/
theorem name_override_resolution (input nameOverride ticketTitle nowSuffix : String)
    (pfc : Option String) :
    ((resolveLaunchIdentity input nameOverride ticketTitle nowSuffix pfc).branch
      = (resolveLaunchIdentity input nameOverride ticketTitle nowSuffix pfc).id)
    ∧ (nameOverride ≠ "" → slugify nameOverride ≠ "" →
        (resolveLaunchIdentity input nameOverride ticketTitle nowSuffix pfc).id
          = slugify nameOverride)
    ∧ (nameOverride ≠ "" → slugify nameOverride = "" →
        (resolveLaunchIdentity input nameOverride ticketTitle nowSuffix pfc).id
          = nameOverride) := by
  refine ⟨?_, ?_, ?_⟩
  · cases pfc with
    | none =>
      simp only [resolveLaunchIdentity]
      split_ifs <;> rfl
    | some c =>
      simp only [resolveLaunchIdentity]
      split_ifs <;> rfl
  · intro h hs
    cases pfc <;> simp [resolveLaunchIdentity, h, hs]
  · intro h hs
    cases pfc <;> simp [resolveLaunchIdentity, h, hs]

/-- Witness for C9 at concrete overrides, one slugifiable and one not. -/
theorem name_override_resolution_witness :
    (resolveLaunchIdentity "x" "My Fix!" "" "1" none).id = slugify "My Fix!" ∧
    (resolveLaunchIdentity "x" "???" "" "1" none).id = "???" ∧
    (resolveLaunchIdentity "x" "My Fix!" "" "1" none).branch
      = (resolveLaunchIdentity "x" "My Fix!" "" "1" none).id :=
  ⟨(name_override_resolution "x" "My Fix!" "" "1" none).2.1 (by decide) (by decide),
   (name_override_resolution "x" "???" "" "1" none).2.2 (by decide) (by decide),
   (name_override_resolution "x" "My Fix!" "" "1" none).1⟩

/-- C10: in interactive mode `buildClaudeCmd` writes no prompt file and
the returned command does not incorporate the prompt (it is identical
for any two prompts and any two workspace paths); with an empty model
and empty extra args the command is exactly `"claude"`, and then none of
the headless-only flags (`-p`, `--allowedTools`, `--max-turns`,
`--max-budget-usd`, `--output-format`, the prompt-file redirection)
occur in it. -/
theorem interactive_cmd_clean (p1 p2 wt1 wt2 : String) (config : Config)
    (extraArgs : String) :
    ((buildClaudeCmd p1 .interactive wt1 config extraArgs).writes = [])
    ∧ (buildClaudeCmd p1 .interactive wt1 config extraArgs
        = buildClaudeCmd p2 .interactive wt2 config extraArgs)
    ∧ (config.model = "" → extraArgs = "" →
        (buildClaudeCmd p1 .interactive wt1 config extraArgs).cmd = "claude"
        ∧ hasSub (buildClaudeCmd p1 .interactive wt1 config extraArgs).cmd.data
            (" -p".data) = false
        ∧ hasSub (buildClaudeCmd p1 .interactive wt1 config extraArgs).cmd.data
            ("--allowedTools".data) = false
        ∧ hasSub (buildClaudeCmd p1 .interactive wt1 config extraArgs).cmd.data
            ("--max-turns".data) = false
        ∧ hasSub (buildClaudeCmd p1 .interactive wt1 config extraArgs).cmd.data
            ("--max-budget-usd".data) = false
        ∧ hasSub (buildClaudeCmd p1 .interactive wt1 config extraArgs).cmd.data
            ("--output-format".data) = false
        ∧ hasSub (buildClaudeCmd p1 .interactive wt1 config extraArgs).cmd.data
            (" < ".data) = false) := by
  refine ⟨?_, ?_, ?_⟩
  · simp [buildClaudeCmd]
  · simp [buildClaudeCmd]
  · intro hm he
    have hc : (buildClaudeCmd p1 .interactive wt1 config extraArgs).cmd = "claude" := by
      simp [buildClaudeCmd, hm, he]
    rw [hc]
    refine ⟨rfl, ?_, ?_, ?_, ?_, ?_, ?_⟩ <;> decide

/-- Witness for C10 with a concrete empty-model, empty-extra-args config. -/
theorem interactive_cmd_clean_witness :
    (buildClaudeCmd "do stuff" .interactive "/tmp/wt"
        (Config.mk "dev" "" "" "" "tools" ".worktrees" 30) "").writes = [] ∧
    (buildClaudeCmd "do stuff" .interactive "/tmp/wt"
        (Config.mk "dev" "" "" "" "tools" ".worktrees" 30) "").cmd = "claude" :=
  ⟨(interactive_cmd_clean "do stuff" "other" "/tmp/wt" "/tmp/wt2"
      (Config.mk "dev" "" "" "" "tools" ".worktrees" 30) "").1,
   ((interactive_cmd_clean "do stuff" "other" "/tmp/wt" "/tmp/wt2"
      (Config.mk "dev" "" "" "" "tools" ".worktrees" 30) "").2.2 rfl rfl).1⟩

end Dispatch
